import Mathlib

/-!
Shallow embedding of the EV trip planner's route-planning engine
(`src/models/astar.js`, class `AStar`) and proofs about it.

Modelling conventions:
* JavaScript numbers are modelled as exact rationals (`ℚ`); every arithmetic
  operation the engine performs (+, -, *, /, floor, comparisons) is exact on
  the inputs used here.
* JavaScript objects used as string-keyed dictionaries, and `Map`s, are
  modelled as association lists `List (String × α)` in insertion order;
  `assocSet` mirrors `obj[k] = v` / `Map.set` (update in place, else append),
  `List.lookup` mirrors key access (`undefined` = `none`).
* The source computes all geographic distances with `calculateDistance`, the
  haversine great-circle formula on Earth radius 6371 km.  That formula is
  transcendental, so the embedding carries the metric as an explicit function
  field `distFn : Loc → Loc → ℚ`; no theorem below depends on which metric is
  supplied, and every concrete instance uses a realizable metric.
* Reading `undefined.push` / iterating `undefined`, which throws a TypeError
  in the source, is modelled by `Option` (`none` = the constructor threw) or
  by an explicit `crash` result constructor that the orchestrator maps to the
  source's catch-all error result.
-/

namespace EVTrip

/-- A geographic coordinate (lat, lng). -/
abbrev Loc := ℚ × ℚ

/-- A road-network node (`roadNetwork.nodes[i]`). -/
structure Node where
  id : String
  name : String := ""
  location : Loc
deriving DecidableEq, Repr, Inhabited

/-- A road-network edge (`roadNetwork.edges[i]`); an unordered connection
stored once, with physical distance in km, a condition tag and a type tag.
The source field names are `from`/`to`; `from` is a Lean keyword, hence
`fromId`/`toId`. -/
structure Edge where
  fromId : String
  toId : String
  distance : ℚ
  condition : String := "normal"
  type : String := "normal"
deriving DecidableEq, Repr, Inhabited

/-- A charging station.  `distanceToNode` / `distanceToPath` are the derived
fields the engine attaches (`mapChargingStationsToNodes`,
`findNearbyChargingStations`). -/
structure Station where
  id : String
  name : String := ""
  location : Loc
  chargingSpeed : ℚ
  connectorTypes : List String
  distanceToNode : ℚ := 0
  distanceToPath : ℚ := 0
deriving DecidableEq, Repr, Inhabited

/-- The vehicle profile. -/
structure Vehicle where
  batteryCapacity : ℚ
  range : ℚ := 0
  efficiency : ℚ
  connectorType : String
deriving DecidableEq, Repr, Inhabited

/-- One adjacency-list entry: the neighbour plus the edge data copied in
`buildAdjacencyList`. -/
structure AdjEntry where
  node : String
  distance : ℚ
  condition : String
  type : String
deriving DecidableEq, Repr, Inhabited

/-- A charging stop as pushed by `checkPathFeasibility` (required stops,
`isOptional = false`) or by `findPath`'s optional-station pass
(`isOptional = true`, `chargingTime = 0`). -/
structure ChargingStop where
  nodeId : String
  stationId : String
  stationName : String
  location : Loc
  chargingTime : ℚ
  energyAdded : ℚ
  isOptional : Bool := false
  distanceToPath : ℚ := 0
deriving DecidableEq, Repr, Inhabited

/-- `obj[k] = v` on a string-keyed JS object / `Map.set`: replace the value at
the first matching key in place, else append the new key at the end. -/
def assocSet {α : Type} : List (String × α) → String → α → List (String × α)
  | [], k, v => [(k, v)]
  | (k', v') :: rest, k, v =>
    if k' == k then (k, v) :: rest else (k', v') :: assocSet rest k v

/-- `adjacencyList[k].push(e)`: `none` models the TypeError the source throws
when the key is absent (`undefined.push`). -/
def updateAdj : List (String × List AdjEntry) → String → AdjEntry →
    Option (List (String × List AdjEntry))
  | [], _, _ => none
  | (k', l) :: rest, k, e =>
    if k' == k then some ((k', l ++ [e]) :: rest)
    else (updateAdj rest k e).map ((k', l) :: ·)

/-- The adjacency entry pushed onto `adjacencyList[edge.from]`. -/
def fwdEntry (e : Edge) : AdjEntry :=
  { node := e.toId, distance := e.distance,
    condition := e.condition, type := e.type }

/-- The adjacency entry pushed onto `adjacencyList[edge.to]`. -/
def bwdEntry (e : Edge) : AdjEntry :=
  { node := e.fromId, distance := e.distance,
    condition := e.condition, type := e.type }

/-- The two pushes `buildAdjacencyList` performs for one edge. -/
def addEdge (m : List (String × List AdjEntry)) (e : Edge) :
    Option (List (String × List AdjEntry)) := do
  let m1 ← updateAdj m e.fromId (fwdEntry e)
  updateAdj m1 e.toId (bwdEntry e)

/-- The initialization loop of `buildAdjacencyList`: every node id mapped to
an empty list (a repeated id re-assigns the same empty list of the single
key, as the JS object does). -/
def initAdj (nodes : List Node) : List (String × List AdjEntry) :=
  nodes.foldl
    (fun m n => if (List.lookup n.id m).isSome then m
                else m ++ [(n.id, ([] : List AdjEntry))]) []

/-- `buildAdjacencyList` (astar.js lines 41–68): initialize every node id to an
empty list, then push both directions of every edge.  A dangling endpoint id
makes the push throw in the source; here the whole construction returns
`none`. -/
def buildAdjacencyList (nodes : List Node) (edges : List Edge) :
    Option (List (String × List AdjEntry)) :=
  edges.foldlM addEdge (initAdj nodes)

/-- A node→stations association, in insertion order. -/
abbrev StationMap := List (String × List Station)

/-- `if (!m[k]) m[k] = []; m[k].push(v)` on a string-keyed object: append to
the existing list, else add the key at the end. -/
def pushAssoc : StationMap → String → Station → StationMap
  | [], k, v => [(k, [v])]
  | (k', l) :: rest, k, v =>
    if k' == k then (k', l ++ [v]) :: rest else (k', l) :: pushAssoc rest k v

/-- The inner scan of `mapChargingStationsToNodes`: the first node attaining
the strictly smallest `distFn` value (`minDistance` starts at `Infinity`,
update on strict `<`). -/
def nearestNodeTo (distFn : Loc → Loc → ℚ) (nodes : List Node) (loc : Loc) :
    Option (String × ℚ) :=
  nodes.foldl (fun acc n =>
    let d := distFn loc n.location
    match acc with
    | none => some (n.id, d)
    | some (_, m) => if d < m then some (n.id, d) else acc) none

/-- `mapChargingStationsToNodes` (astar.js lines 74–106): group the stations by
their nearest node id, attaching `distanceToNode`.  The source skips a station
when `nearestNode` is falsy, i.e. when no node exists or the nearest node's id
is the empty string. -/
def mapChargingStationsToNodes (distFn : Loc → Loc → ℚ) (nodes : List Node)
    (stations : List Station) : StationMap :=
  stations.foldl (fun m station =>
    match nearestNodeTo distFn nodes station.location with
    | none => m
    | some (nid, minDist) =>
      if nid = "" then m
      else pushAssoc m nid { station with distanceToNode := minDist }) []

/-- The inner scan of `findNearbyChargingStations`: the first path node
attaining the strictly smallest distance to `loc`, with that distance
(`minDistanceToPath` starts at `Infinity`; path ids missing from `nodes` are
skipped). -/
def closestInPath (distFn : Loc → Loc → ℚ) (nodes : List Node) (loc : Loc)
    (path : List String) : Option (String × ℚ) :=
  path.foldl (fun acc pid =>
    match nodes.find? (fun n => n.id == pid) with
    | none => acc
    | some pn =>
      let d := distFn loc pn.location
      match acc with
      | none => some (pid, d)
      | some (_, m) => if d < m then some (pid, d) else acc) none

/-- The second phase of `findNearbyChargingStations`, for one key `nodeId` of
the node→stations map: skip path nodes; find the path node closest to this
node; when it is within `maxDetourDistance`, append this node's stations
(with `distanceToPath` set) to that closest path node's list.  The source
sets `distanceToPath` by mutating the shared station records in one branch
and by copying in the other; both are modelled as copies, the observable
field values being identical. -/
def attachNearby (distFn : Loc → Loc → ℚ) (nodes : List Node)
    (nodeToCS : StationMap) (path : List String) (maxDetourDistance : ℚ)
    (m : StationMap) (nodeId : String) : StationMap :=
  if path.contains nodeId then m
  else
    match nodes.find? (fun n => n.id == nodeId) with
    | none => m
    | some nodeObj =>
      match closestInPath distFn nodes nodeObj.location path with
      | none => m
      | some (closestPathNode, minDistanceToPath) =>
        if minDistanceToPath ≤ maxDetourDistance then
          let stationsAtNode := (List.lookup nodeId nodeToCS).getD []
          let withDist := stationsAtNode.map
            (fun st => { st with distanceToPath := minDistanceToPath })
          assocSet m closestPathNode
            ((List.lookup closestPathNode m).getD [] ++ withDist)
        else m

/-- The first phase of `findNearbyChargingStations`: stations co-located with
a path node. -/
def onPathStations (nodeToCS : StationMap) (path : List String) : StationMap :=
  path.foldl (fun m nodeId =>
    match List.lookup nodeId nodeToCS with
    | some sts => assocSet m nodeId sts
    | none => m) []

/-- `findNearbyChargingStations` (astar.js lines 341–413): stations co-located
with a path node first, then stations at off-path nodes whose closest path
node is within `maxDetourDistance`, appended to that node's list in the
key order of the node→stations map. -/
def findNearbyChargingStations (distFn : Loc → Loc → ℚ) (nodes : List Node)
    (nodeToCS : StationMap) (path : List String) (maxDetourDistance : ℚ) :
    StationMap :=
  (nodeToCS.map Prod.fst).foldl
    (attachNearby distFn nodes nodeToCS path maxDetourDistance)
    (onPathStations nodeToCS path)

/-- The result of `checkPathFeasibility`.  `crash` models the TypeError the
source throws when a station map holds a key with an empty station list
(`stations[0]` is `undefined`); the maps the engine builds never do. -/
inductive FeasResult
  | feasible (chargingStops : List ChargingStop) (finalBatteryLevel : ℚ)
  | infeasible (error : String)
  | crash
deriving DecidableEq, Repr, Inhabited

/-- Whether some of the station's connector types equals the vehicle's
(`station.connectorTypes.some(ct => this.vehicle.connectorType === ct)`). -/
def compatibleConnector (veh : Vehicle) (st : Station) : Bool :=
  st.connectorTypes.any (fun c => veh.connectorType == c)

/-- The required charging stop pushed when the planner charges fully at
`nodeId` with battery level `battery`. -/
def fullChargeStop (veh : Vehicle) (nodeId : String) (st : Station)
    (battery : ℚ) : ChargingStop :=
  { nodeId := nodeId, stationId := st.id, stationName := st.name,
    location := st.location,
    chargingTime := (veh.batteryCapacity - battery) / st.chargingSpeed,
    energyAdded := veh.batteryCapacity - battery }

/-- The forced-charge check of the `checkPathFeasibility` loop (astar.js
lines 469–522): when the segment's energy need exceeds the battery, consult
the station list at the departure node `fromN`; the first station of the list
(`stations[0]`) decides: compatible → charge fully, incompatible → the
no-connector error; no list at all → the no-station error.  Otherwise
nothing happens. -/
def forcedCharge (veh : Vehicle) (stations : StationMap) (fromN toN : String)
    (battery energyNeeded : ℚ) : Except FeasResult (List ChargingStop × ℚ) :=
  if energyNeeded > battery then
    match List.lookup fromN stations with
    | some (st :: _) =>
      if compatibleConnector veh st then
        .ok ([fullChargeStop veh fromN st battery], veh.batteryCapacity)
      else .error (.infeasible
        ("No compatible charging connector at " ++ fromN))
    | some [] => .error .crash
    | none => .error (.infeasible
        ("No charging station at " ++ fromN ++
         " and not enough battery to reach " ++ toN))
  else .ok ([], battery)

/-- The defensive-charge check of the `checkPathFeasibility` loop (astar.js
lines 530–569): after traversing into `toN` with battery `b2`, charge fully
there when the battery is below 20 %, `toN` is not the last path node
(`rest ≠ []` is the source's `i < path.length - 2`), and the first station of
the list at `toN` is compatible. -/
def defensiveCharge (veh : Vehicle) (stations : StationMap) (toN : String)
    (rest : List String) (b2 : ℚ) :
    Except FeasResult (List ChargingStop × ℚ) :=
  if b2 / veh.batteryCapacity * 100 < 20 ∧ rest ≠ [] then
    match List.lookup toN stations with
    | some (st :: _) =>
      if compatibleConnector veh st then
        .ok ([fullChargeStop veh toN st b2], veh.batteryCapacity)
      else .ok ([], b2)
    | some [] => .error .crash
    | none => .ok ([], b2)
  else .ok ([], b2)

/-- One iteration of the `checkPathFeasibility` loop (astar.js lines 440–570)
for the segment `fromN → toN` (`rest` = the path after `toN`): find the edge;
forced charge at the departure node; traverse; defensive charge at the
arrival node.  Returns the stops pushed and the battery level after the
segment, or the terminating result. -/
def feasStep (veh : Vehicle) (edges : List Edge) (stations : StationMap)
    (fromN toN : String) (rest : List String) (battery : ℚ) :
    Except FeasResult (List ChargingStop × ℚ) :=
  match edges.find? (fun e =>
      (e.fromId == fromN && e.toId == toN) ||
      (e.fromId == toN && e.toId == fromN)) with
  | none => .error (.infeasible
      ("No edge found between " ++ fromN ++ " and " ++ toN))
  | some edge =>
    let energyNeeded := edge.distance * veh.efficiency
    match forcedCharge veh stations fromN toN battery energyNeeded with
    | .error r => .error r
    | .ok (pre, b1) =>
      match defensiveCharge veh stations toN rest (b1 - energyNeeded) with
      | .error r => .error r
      | .ok (post, b3) => .ok (pre ++ post, b3)

/-- The `checkPathFeasibility` simulation loop, as a recursion over the path:
index `i` of the source loop corresponds to the list `path[i], path[i+1], …`.
The defensive-charge guard `i < path.length - 2` is exactly `rest ≠ []` in
`feasStep`. -/
def simulate (veh : Vehicle) (edges : List Edge) (stations : StationMap) :
    ℚ → List String → FeasResult
  | battery, [] => .feasible [] battery
  | battery, [_] => .feasible [] battery
  | battery, fromN :: toN :: rest =>
    match feasStep veh edges stations fromN toN rest battery with
    | .error r => r
    | .ok (pre, b2) =>
      match simulate veh edges stations b2 (toN :: rest) with
      | .feasible stops fb => .feasible (pre ++ stops) fb
      | r => r

/-- `checkPathFeasibility` (astar.js lines 422–579): simulate traversal of
`path` starting from a full battery. -/
def checkPathFeasibility (veh : Vehicle) (path : List String)
    (edges : List Edge) (stations : StationMap) : FeasResult :=
  simulate veh edges stations veh.batteryCapacity path

/-- The result of `findShortestPath`.  `totalDistance` is `gScore[goal]`
(`none` models `Infinity`).  `crash` models the TypeError thrown when the
selected `current` is `null` or has no adjacency entry; unreachable on a
well-built instance. -/
inductive SPResult
  | success (path : List String) (edges : List Edge) (totalDistance : Option ℚ)
  | failure (error : String)
  | crash
deriving DecidableEq, Repr, Inhabited

/-- JS `<` on scores where `none` models `Infinity`. -/
def qlt : Option ℚ → Option ℚ → Bool
  | some a, some b => a < b
  | some _, none => true
  | none, _ => false

/-- JS `>=` on scores where `none` models `Infinity`. -/
def qge (a b : Option ℚ) : Bool := !qlt a b

/-- Addition on scores where `none` (`Infinity`) absorbs. -/
def qadd : Option ℚ → Option ℚ → Option ℚ
  | some a, some b => some (a + b)
  | _, _ => none

/-- Score lookup: a key never written, like one written `Infinity`, reads as
`none`. -/
def oGet (m : List (String × Option ℚ)) (k : String) : Option ℚ :=
  (List.lookup k m).join

/-- `heuristic` (astar.js lines 147–159): the metric between the two nodes'
coordinates, `Infinity` (`none`) when either id is absent. -/
def heuristic (distFn : Loc → Loc → ℚ) (nodes : List Node)
    (nodeId goalId : String) : Option ℚ :=
  match nodes.find? (fun n => n.id == nodeId),
        nodes.find? (fun n => n.id == goalId) with
  | some n, some g => some (distFn n.location g.location)
  | _, _ => none

/-- The open-set scan picking `current`: the first open node with the
strictly lowest `fScore` (`lowestFScore` starts at `Infinity`); `none` when
every open node's score is `Infinity` (JS leaves `current = null`). -/
def selectCurrent (openSet : List String)
    (fScore : List (String × Option ℚ)) : Option String :=
  (openSet.foldl (fun acc nodeId =>
    if qlt (oGet fScore nodeId) acc.2 then (some nodeId, oGet fScore nodeId)
    else acc) ((none : Option String), (none : Option ℚ))).1

/-- `reconstructPath` (astar.js lines 740–749): follow `cameFrom` from the
goal, prepending, while the predecessor entry is truthy (`""` is falsy).  The
source's `while` loop cannot terminate on a cyclic map; the fuel, chosen
larger than any genuine chain, makes the recursion total and never runs out
on the acyclic maps the search builds. -/
def reconstructPath (cameFrom : List (String × String)) :
    Nat → String → List String
  | 0, current => [current]
  | fuel + 1, current =>
    match List.lookup current cameFrom with
    | some prev =>
      if prev = "" then [current]
      else reconstructPath cameFrom fuel prev ++ [current]
    | none => [current]

/-- `getEdgesForPath` (astar.js lines 303–333): for each consecutive pair, the
`edgeBetween` entry under the key `from-to` or `to-from`, else the first
matching edge of the original list, else nothing. -/
def getEdgesForPath (allEdges : List Edge)
    (edgeBetween : List (String × AdjEntry)) : List String → List Edge
  | fromN :: toN :: rest =>
    let tail := getEdgesForPath allEdges edgeBetween (toN :: rest)
    match (List.lookup (fromN ++ "-" ++ toN) edgeBetween).orElse
        (fun _ => List.lookup (toN ++ "-" ++ fromN) edgeBetween) with
    | some entry =>
      { fromId := fromN, toId := toN, distance := entry.distance,
        condition := entry.condition, type := entry.type } :: tail
    | none =>
      match allEdges.find? (fun e =>
          (e.fromId == fromN && e.toId == toN) ||
          (e.fromId == toN && e.toId == fromN)) with
      | some e => e :: tail
      | none => tail
  | _ => []

/-- The weighted edge cost of the search (astar.js lines 260–269): a 5 %
discount for `highway` / `toll_road` edges and a 20 % penalty for `poor`
condition. -/
def edgeWeight (nb : AdjEntry) : ℚ :=
  nb.distance * (if nb.type == "highway" || nb.type == "toll_road"
                 then (19 : ℚ) / 20 else 1)
              * (if nb.condition == "poor" then (6 : ℚ) / 5 else 1)

/-- The mutable state of the search loop. -/
structure AStarState where
  openSet : List String
  gScore : List (String × Option ℚ)
  fScore : List (String × Option ℚ)
  cameFrom : List (String × String)
  edgeBetween : List (String × AdjEntry)

/-- The neighbour-relaxation body (astar.js lines 252–287) for one adjacency
entry of `current`. -/
def relaxNeighbor (distFn : Loc → Loc → ℚ) (nodes : List Node)
    (goal current : String) (closedSet : List String)
    (s : AStarState) (nb : AdjEntry) : AStarState :=
  if closedSet.contains nb.node then s
  else
    let tentative := qadd (oGet s.gScore current) (some (edgeWeight nb))
    let record : List String → AStarState := fun openS =>
      { openSet := openS,
        gScore := assocSet s.gScore nb.node tentative,
        fScore := assocSet s.fScore nb.node
          (qadd tentative (heuristic distFn nodes nb.node goal)),
        cameFrom := assocSet s.cameFrom nb.node current,
        edgeBetween := assocSet s.edgeBetween
          (current ++ "-" ++ nb.node) nb }
    if !s.openSet.contains nb.node then record (s.openSet ++ [nb.node])
    else if qge tentative (oGet s.gScore nb.node) then s
    else record s.openSet

/-- The `while (openSet.size > 0)` loop of `findShortestPath` (astar.js lines
221–288).  Every iteration moves the selected node into `closedSet` and closed
nodes are never relaxed again, so a genuine run performs at most one iteration
per node; the fuel passed by `findShortestPath` therefore never runs out
(running out is modelled as `crash`). -/
def astarLoop (distFn : Loc → Loc → ℚ) (nodes : List Node)
    (adjacencyList : List (String × List AdjEntry)) (allEdges : List Edge)
    (goal : String) : Nat → List String → AStarState → SPResult
  | 0, _, _ => .crash
  | fuel + 1, closedSet, s =>
    if s.openSet.isEmpty then .failure "No path found between the given nodes"
    else
      match selectCurrent s.openSet s.fScore with
      | none => .crash
      | some current =>
        if current = goal then
          let path := reconstructPath s.cameFrom (s.cameFrom.length + 1) current
          .success path (getEdgesForPath allEdges s.edgeBetween path)
            (oGet s.gScore goal)
        else
          match List.lookup current adjacencyList with
          | none => .crash
          | some neighbors =>
            let closedSet' := closedSet ++ [current]
            let s' := neighbors.foldl
              (relaxNeighbor distFn nodes goal current closedSet')
              { s with openSet := s.openSet.filter (fun x => x ≠ current) }
            astarLoop distFn nodes adjacencyList allEdges goal fuel
              closedSet' s'

/-- `findShortestPath` (astar.js lines 186–295): check both endpoints exist,
then run the search from `start`. -/
def findShortestPath (distFn : Loc → Loc → ℚ) (nodes : List Node)
    (adjacencyList : List (String × List AdjEntry)) (allEdges : List Edge)
    (start goal : String) : SPResult :=
  if (nodes.find? (fun n => n.id == start)).isNone ||
     (nodes.find? (fun n => n.id == goal)).isNone then
    .failure "Start or goal node not found in the road network"
  else
    astarLoop distFn nodes adjacencyList allEdges goal (nodes.length + 1) []
      { openSet := [start],
        gScore := [(start, some 0)],
        fScore := [(start, heuristic distFn nodes start goal)],
        cameFrom := [],
        edgeBetween := [] }

/-- The engine's state after the constructor (astar.js lines 18–35). -/
structure AStar where
  nodes : List Node
  edges : List Edge
  chargingStations : List Station
  vehicle : Vehicle
  distFn : Loc → Loc → ℚ
  adjacencyList : List (String × List AdjEntry)
  nodeToChargingStation : StationMap
  maxDetourDistance : ℚ := 5
deriving Inhabited

/-- The `AStar` constructor: `none` models the TypeError thrown by
`buildAdjacencyList` on a dangling edge endpoint. -/
def AStar.make (roadNodes : List Node) (roadEdges : List Edge)
    (stations : List Station) (vehicle : Vehicle)
    (distFn : Loc → Loc → ℚ) : Option AStar :=
  (buildAdjacencyList roadNodes roadEdges).map (fun adj =>
    { nodes := roadNodes, edges := roadEdges, chargingStations := stations,
      vehicle := vehicle, distFn := distFn, adjacencyList := adj,
      nodeToChargingStation :=
        mapChargingStationsToNodes distFn roadNodes stations })

/-- `a.findShortestPath(start, goal)`. -/
def AStar.findShortestPath (a : AStar) (start goal : String) : SPResult :=
  EVTrip.findShortestPath a.distFn a.nodes a.adjacencyList a.edges start goal

/-- `a.checkPathFeasibility(path, edges, chargingStations)`. -/
def AStar.checkPathFeasibility (a : AStar) (path : List String)
    (edges : List Edge) (stations : StationMap) : FeasResult :=
  EVTrip.checkPathFeasibility a.vehicle path edges stations

/-- `a.findNearbyChargingStations(path, maxDetourDistance)`. -/
def AStar.findNearbyChargingStations (a : AStar) (path : List String)
    (maxDetourDistance : ℚ) : StationMap :=
  EVTrip.findNearbyChargingStations a.distFn a.nodes a.nodeToChargingStation
    path maxDetourDistance

/-- `edges.reduce((sum, edge) => sum + edge.distance, 0)`. -/
def sumDistance (edges : List Edge) : ℚ :=
  edges.foldl (fun s e => s + e.distance) 0

/-- JS `s || d` for the strings involved here: the default replaces only the
falsy empty string. -/
def jsOr (s d : String) : String := if s = "" then d else s

/-- The result of `findPathWithChargingStations`. -/
inductive PWCResult
  | success (path : List String) (edges : List Edge)
      (chargingStops : List ChargingStop) (totalDistance : ℚ)
      (warning : Option String)
  | failure (error : String)
  | crash
deriving DecidableEq, Repr, Inhabited

/-- `findPathWithChargingStations` (astar.js lines 587–633): try the default
detour radius, then retry at 10 km; a success reports
`totalDistance = edges.reduce(sum of distance)`. -/
def AStar.findPathWithChargingStations (a : AStar) (optimalPath : List String)
    (edges : List Edge) : PWCResult :=
  let nearby := a.findNearbyChargingStations optimalPath a.maxDetourDistance
  match a.checkPathFeasibility optimalPath edges nearby with
  | .feasible stops _ =>
    .success optimalPath edges stops (sumDistance edges) none
  | .crash => .crash
  | .infeasible _ =>
    let wider := a.findNearbyChargingStations optimalPath 10
    match a.checkPathFeasibility optimalPath edges wider with
    | .feasible stops _ =>
      .success optimalPath edges stops (sumDistance edges)
        (some "Had to use charging stations farther from the main route")
    | .crash => .crash
    | .infeasible err =>
      .failure (jsOr err "Could not find a feasible path with charging stations")

/-- `calculateTripTime` (astar.js lines 757–775): driving time at 60 km/h,
plus the charging time of the non-optional stops, plus 15 minutes of rest per
full 2 hours of driving. -/
def calculateTripTime (distance : ℚ) (chargingStops : List ChargingStop) : ℚ :=
  let averageSpeed : ℚ := 60
  let drivingTime := distance / averageSpeed
  let chargingTime := chargingStops.foldl
    (fun total stop =>
      if stop.isOptional then total else total + stop.chargingTime) 0
  let restTime := (⌊drivingTime / 2⌋ : ℚ) * ((1 : ℚ) / 4)
  drivingTime + chargingTime + restTime

/-- `path.indexOf(nodeId)`: the first index, `-1` when absent. -/
def idxOf (path : List String) (nodeId : String) : ℤ :=
  match path.findIdx? (fun x => x == nodeId) with
  | some i => (i : ℤ)
  | none => -1

/-- Insert `x` after every element whose key is `≤` its own: the insertion
step of a stable ascending sort. -/
def insertAfterLE {α : Type} (f : α → ℤ) (x : α) : List α → List α
  | [] => [x]
  | y :: ys => if f y ≤ f x then y :: insertAfterLE f x ys else x :: y :: ys

/-- JS `Array.prototype.sort` with the comparator `(a, b) => f a - f b`:
ascending and stable. -/
def stableSortBy {α : Type} (f : α → ℤ) (l : List α) : List α :=
  l.foldl (fun acc x => insertAfterLE f x acc) []

/-- The engine's output object (§ RouteResult); absent JS fields are `none`.
The source's catch-all message carries the thrown error's text; the model
keeps the constant prefix. -/
structure RouteResult where
  success : Bool
  path : Option (List String) := none
  chargingStops : Option (List ChargingStop) := none
  totalDistance : Option ℚ := none
  estimatedTime : Option ℚ := none
  error : Option String := none
  partialPath : Option (List String) := none
  warning : Option String := none
deriving DecidableEq, Repr, Inhabited

/-- The optional-stop pass of `findPath` (astar.js lines 682–711): stations
found near the final path, at nodes with no required stop, that lie on the
path, as zero-time optional stops sorted by position along the path. -/
def optionalStops (a : AStar) (path : List String)
    (chargingStops : List ChargingStop) : List ChargingStop :=
  let nearby := a.findNearbyChargingStations path a.maxDetourDistance
  let additional := nearby.foldl (fun acc kv =>
    if chargingStops.any (fun stop => stop.nodeId == kv.1) then acc
    else if path.contains kv.1 then
      match kv.2.head? with
      | some station =>
        acc ++ [{ nodeId := kv.1, stationId := station.id,
                  stationName := station.name, chargingTime := 0,
                  energyAdded := 0, isOptional := true,
                  location := station.location,
                  distanceToPath := station.distanceToPath }]
      | none => acc
    else acc) []
  stableSortBy (fun stop => idxOf path stop.nodeId) additional

/-- `findPath` (astar.js lines 641–732): orchestrate search, feasibility and
assembly; failures are returned as structured results, a thrown error as the
catch-all result. -/
def AStar.findPath (a : AStar) (start goal : String) : RouteResult :=
  match a.findShortestPath start goal with
  | .crash => { success := false, error := some "An unexpected error occurred" }
  | .failure err =>
    { success := false,
      error := some (jsOr err "Could not find a path between the given locations") }
  | .success p es d =>
    match a.findPathWithChargingStations p es with
    | .crash => { success := false, error := some "An unexpected error occurred" }
    | .failure err =>
      { success := false, error := some err, partialPath := some p,
        totalDistance := d }
    | .success p' _ stops total warn =>
      let estimatedTime := calculateTripTime total stops
      { success := true, path := some p',
        chargingStops := some (stops ++ optionalStops a p' stops),
        totalDistance := some total, estimatedTime := some estimatedTime,
        warning := warn }

/-!
Concrete instances.  `linDist` is the taxicab metric on the coordinate plane:
a genuine metric standing in for the haversine formula (every distance below
is realizable by actual coordinates under the haversine formula as well; the
station of Scenario B sits exactly at the origin node, where every metric
gives 0). -/

/-- The concrete metric used by the instances below. -/
def linDist (p q : Loc) : ℚ := |p.1 - q.1| + |p.2 - q.2|

/-- Scenario A/B road network: two nodes joined by a single 100 km edge. -/
def nodesB : List Node :=
  [{ id := "A", location := (0, 0) }, { id := "B", location := (100, 0) }]

/-- The single 100 km edge of Scenario B. -/
def edgesB : List Edge := [{ fromId := "A", toId := "B", distance := 100 }]

/-- Scenario B's compatible 50 kW station at the origin node. -/
def stationsB : List Station :=
  [{ id := "S1", name := "Origin Station", location := (0, 0),
     chargingSpeed := 50, connectorTypes := ["CCS2"] }]

/-- Scenario A/B vehicle: 15 kWh capacity, 0.2 kWh/km. -/
def vehB : Vehicle :=
  { batteryCapacity := 15, efficiency := 1/5, connectorType := "CCS2" }

/-- The Scenario B engine instance. -/
def aB : AStar := (AStar.make nodesB edgesB stationsB vehB linDist).getD default

/-- The station map the Scenario B instance builds: the station, at distance 0,
grouped under the origin node. -/
def stMapB : StationMap :=
  [("A", [{ id := "S1", name := "Origin Station", location := (0, 0),
            chargingSpeed := 50, connectorTypes := ["CCS2"],
            distanceToNode := 0 }])]

/-- The required charging stop the engine records in Scenario B. -/
def scenarioBStop : ChargingStop :=
  { nodeId := "A", stationId := "S1", stationName := "Origin Station",
    location := (0, 0), chargingTime := 0, energyAdded := 0 }

/-- The station map of the C3 counterexample: two stations at node `A`, the
first incompatible with the vehicle's CCS2 connector, the second
compatible. -/
def stMapC3 : StationMap :=
  [("A", [{ id := "S1", location := (0, 0), chargingSpeed := 50,
            connectorTypes := ["CHAdeMO"] },
          { id := "S2", location := (0, 0), chargingSpeed := 50,
            connectorTypes := ["CCS2"] }])]

/-- C8 road network: the path nodes `A`, `B` plus two off-path nodes `X`
(8 km from `A`) and `Y` (3 km from `A`). -/
def nodesC8 : List Node :=
  [{ id := "A", location := (0, 0) }, { id := "B", location := (100, 0) },
   { id := "X", location := (8, 0) }, { id := "Y", location := (3, 0) }]

/-- C8 stations: an incompatible one at `X` and a compatible one at `Y`. -/
def stationsC8 : List Station :=
  [{ id := "S1", location := (8, 0), chargingSpeed := 50,
     connectorTypes := ["CHAdeMO"] },
   { id := "S2", location := (3, 0), chargingSpeed := 50,
     connectorTypes := ["CCS2"] }]

/-- The C8 node→stations map, as the engine's station locator builds it. -/
def csMapC8 : StationMap := mapChargingStationsToNodes linDist nodesC8 stationsC8


/-- `m` maps key `k` to a list containing the entry `e`. -/
def adjContains (m : List (String × List AdjEntry)) (k : String)
    (e : AdjEntry) : Prop :=
  ∃ l, List.lookup k m = some l ∧ e ∈ l

/-- The summed charging time of the non-optional stops of a list. -/
def requiredChargingTime (stops : List ChargingStop) : ℚ :=
  ((stops.filter (fun s => !s.isOptional)).map (fun s => s.chargingTime)).sum

/-- The station list a map associates with a key (`[]` when absent). -/
def lookupList (m : StationMap) (k : String) : List Station :=
  (List.lookup k m).getD []

/-- `m'` associates with every key a superset of the stations `m` associates
with it. -/
def subMap (m m' : StationMap) : Prop :=
  ∀ k s, s ∈ lookupList m k → s ∈ lookupList m' k

/-- The single 100 km highway edge of the C7 counterexample (the search
applies its 5 % discount to it). -/
def edgesH : List Edge :=
  [{ fromId := "A", toId := "B", distance := 100, type := "highway" }]

/-- The C7 engine instance: the highway edge, no stations. -/
def aC7 : AStar := (AStar.make nodesB edgesH [] vehB linDist).getD default

/-- The adjacency structure the Scenario B instance builds. -/
def adjB : List (String × List AdjEntry) :=
  [("A", [{ node := "B", distance := 100, condition := "normal",
            type := "normal" }]),
   ("B", [{ node := "A", distance := 100, condition := "normal",
            type := "normal" }])]

/-- The compatible station as the C8 resolver attaches it to node `A` at the
widened radius. -/
def stationS2atA : Station :=
  { id := "S2", location := (3, 0), chargingSpeed := 50,
    connectorTypes := ["CCS2"], distanceToPath := 3 }

/-!  Lemmas and claim theorems.  -/

theorem updateAdj_lookup_self {m m' : List (String × List AdjEntry)}
    {k : String} {e : AdjEntry} (h : updateAdj m k e = some m') :
    ∃ l, List.lookup k m = some l ∧ List.lookup k m' = some (l ++ [e]) := by
  induction m generalizing m' with
  | nil => simp [updateAdj] at h
  | cons kv rest ih =>
    obtain ⟨k', l⟩ := kv
    by_cases hk : k' = k
    · subst hk
      simp [updateAdj] at h
      subst h
      simp [List.lookup]
    · simp [updateAdj, hk] at h
      obtain ⟨m₂, hm₂, hm'⟩ := h
      obtain ⟨l₂, hl₂, hl₂'⟩ := ih hm₂
      subst hm'
      refine ⟨l₂, ?_, ?_⟩ <;>
        simp [List.lookup, show (k == k') = false by simp [Ne.symm hk], hl₂, hl₂']

theorem updateAdj_lookup_other {m m' : List (String × List AdjEntry)}
    {k : String} {e : AdjEntry} (h : updateAdj m k e = some m')
    (k₂ : String) (hne : k₂ ≠ k) :
    List.lookup k₂ m' = List.lookup k₂ m := by
  induction m generalizing m' with
  | nil => simp [updateAdj] at h
  | cons kv rest ih =>
    obtain ⟨k', l⟩ := kv
    by_cases hk : k' = k
    · subst hk
      simp [updateAdj] at h
      subst h
      simp [List.lookup, show (k₂ == k') = false by simp [hne]]
    · simp [updateAdj, hk] at h
      obtain ⟨m₂, hm₂, hm'⟩ := h
      subst hm'
      by_cases hk2 : k₂ = k'
      · subst hk2
        simp [List.lookup]
      · simp [List.lookup, show (k₂ == k') = false by simp [hk2], ih hm₂]

theorem updateAdj_preserves {m m' : List (String × List AdjEntry)}
    {k : String} {e : AdjEntry} (h : updateAdj m k e = some m')
    {k₂ : String} {e₂ : AdjEntry} (hc : adjContains m k₂ e₂) :
    adjContains m' k₂ e₂ := by
  obtain ⟨l₂, hl₂, hmem⟩ := hc
  by_cases hk : k₂ = k
  · subst hk
    obtain ⟨l, hl, hl'⟩ := updateAdj_lookup_self h
    rw [hl₂] at hl
    obtain rfl := Option.some.inj hl
    exact ⟨l₂ ++ [e], hl', List.mem_append_left _ hmem⟩
  · exact ⟨l₂, by rw [updateAdj_lookup_other h k₂ hk, hl₂], hmem⟩

theorem updateAdj_adds {m m' : List (String × List AdjEntry)}
    {k : String} {e : AdjEntry} (h : updateAdj m k e = some m') :
    adjContains m' k e := by
  obtain ⟨l, _, hl'⟩ := updateAdj_lookup_self h
  exact ⟨l ++ [e], hl', List.mem_append_right _ (List.mem_singleton_self e)⟩

theorem addEdge_preserves {m m' : List (String × List AdjEntry)} {e : Edge}
    (h : addEdge m e = some m') {k₂ : String} {e₂ : AdjEntry}
    (hc : adjContains m k₂ e₂) : adjContains m' k₂ e₂ := by
  simp only [addEdge, Option.bind_eq_bind, bind, Option.bind_eq_some] at h
  obtain ⟨m₁, h₁, h₂⟩ := h
  exact updateAdj_preserves h₂ (updateAdj_preserves h₁ hc)

theorem addEdge_adds {m m' : List (String × List AdjEntry)} {e : Edge}
    (h : addEdge m e = some m') :
    adjContains m' e.fromId (fwdEntry e) ∧ adjContains m' e.toId (bwdEntry e) := by
  simp only [addEdge, Option.bind_eq_bind, bind, Option.bind_eq_some] at h
  obtain ⟨m₁, h₁, h₂⟩ := h
  exact ⟨updateAdj_preserves h₂ (updateAdj_adds h₁), updateAdj_adds h₂⟩

theorem foldl_addEdge_mem :
    ∀ (edges : List Edge) (m m' : List (String × List AdjEntry)),
      edges.foldlM addEdge m = some m' →
      (∀ k ent, adjContains m k ent → adjContains m' k ent) ∧
      (∀ e ∈ edges,
        adjContains m' e.fromId (fwdEntry e) ∧
        adjContains m' e.toId (bwdEntry e)) := by
  intro edges
  induction edges with
  | nil =>
    intro m m' h
    simp [List.foldlM] at h
    subst h
    exact ⟨fun _ _ hc => hc, by simp⟩
  | cons e es ih =>
    intro m m' h
    rw [List.foldlM_cons] at h
    simp only [Option.bind_eq_bind, bind, Option.bind_eq_some] at h
    obtain ⟨m₁, h₁, h₂⟩ := h
    obtain ⟨hpres, hall⟩ := ih m₁ m' h₂
    refine ⟨fun k ent hc => hpres k ent (addEdge_preserves h₁ hc), ?_⟩
    intro e' he'
    rcases List.mem_cons.mp he' with rfl | he'
    · obtain ⟨h1, h2⟩ := addEdge_adds h₁
      exact ⟨hpres _ _ h1, hpres _ _ h2⟩
    · exact hall e' he'

/-- C5.  Both traversal directions of every input edge are present in a
successfully built adjacency structure, carrying the same distance, condition
and type: the entry `(toId, d, c, t)` in the list of `fromId` and the entry
`(fromId, d, c, t)` in the list of `toId`. -/
theorem buildAdjacencyList_symmetric {nodes : List Node} {edges : List Edge}
    {adj : List (String × List AdjEntry)}
    (h : buildAdjacencyList nodes edges = some adj)
    {e : Edge} (he : e ∈ edges) :
    adjContains adj e.fromId (fwdEntry e) ∧
    adjContains adj e.toId (bwdEntry e) :=
  (foldl_addEdge_mem edges (initAdj nodes) adj h).2 e he

theorem updateAdj_total {m : List (String × List AdjEntry)} {k : String}
    (e : AdjEntry) (h : (List.lookup k m).isSome = true) :
    ∃ m', updateAdj m k e = some m' := by
  induction m with
  | nil => simp [List.lookup] at h
  | cons kv rest ih =>
    obtain ⟨k', l⟩ := kv
    by_cases hk : k' = k
    · subst hk
      exact ⟨(k', l ++ [e]) :: rest, by simp [updateAdj]⟩
    · simp only [List.lookup, show (k == k') = false by simp [Ne.symm hk]] at h
      obtain ⟨m₂, hm₂⟩ := ih h
      exact ⟨(k', l) :: m₂, by simp [updateAdj, hk, hm₂]⟩

theorem updateAdj_keys {m m' : List (String × List AdjEntry)} {k : String}
    {e : AdjEntry} (h : updateAdj m k e = some m') (k₂ : String) :
    (List.lookup k₂ m').isSome = (List.lookup k₂ m).isSome := by
  by_cases hk : k₂ = k
  · subst hk
    obtain ⟨l, hl, hl'⟩ := updateAdj_lookup_self h
    rw [hl, hl']
    rfl
  · rw [updateAdj_lookup_other h k₂ hk]

theorem addEdge_total {m : List (String × List AdjEntry)} {e : Edge}
    (h1 : (List.lookup e.fromId m).isSome = true)
    (h2 : (List.lookup e.toId m).isSome = true) :
    ∃ m', addEdge m e = some m' := by
  obtain ⟨m₁, hm₁⟩ := updateAdj_total (fwdEntry e) h1
  have h2' : (List.lookup e.toId m₁).isSome = true := by
    rw [updateAdj_keys hm₁ e.toId]
    exact h2
  obtain ⟨m₂, hm₂⟩ := updateAdj_total (bwdEntry e) h2'
  exact ⟨m₂, by simp [addEdge, hm₁, hm₂]⟩

theorem addEdge_keys {m m' : List (String × List AdjEntry)} {e : Edge}
    (h : addEdge m e = some m') (k₂ : String) :
    (List.lookup k₂ m').isSome = (List.lookup k₂ m).isSome := by
  simp only [addEdge, Option.bind_eq_bind, bind, Option.bind_eq_some] at h
  obtain ⟨m₁, h₁, h₂⟩ := h
  rw [updateAdj_keys h₂ k₂, updateAdj_keys h₁ k₂]

theorem lookup_append_single {α : Type} (m : List (String × α)) (k k₀ : String)
    (v : α) :
    (List.lookup k (m ++ [(k₀, v)])).isSome =
      ((List.lookup k m).isSome || (k == k₀)) := by
  induction m with
  | nil => cases hbeq : k == k₀ <;> simp [List.lookup, hbeq]
  | cons kv rest ih =>
    obtain ⟨k', l⟩ := kv
    by_cases hk : k = k'
    · simp [List.lookup, hk]
    · simp only [List.cons_append, List.lookup,
        show (k == k') = false by simp [hk]]
      exact ih

theorem initAdj_lookup_isSome {nodes : List Node} {k : String}
    (h : ∃ n ∈ nodes, n.id = k) :
    (List.lookup k (initAdj nodes)).isSome = true := by
  suffices H : ∀ (ns : List Node) (acc : List (String × List AdjEntry)),
      ((List.lookup k acc).isSome = true ∨ ∃ n ∈ ns, n.id = k) →
      (List.lookup k (ns.foldl
        (fun m n => if (List.lookup n.id m).isSome then m
                    else m ++ [(n.id, ([] : List AdjEntry))]) acc)).isSome = true by
    exact H nodes [] (Or.inr h)
  intro ns
  induction ns with
  | nil =>
    intro acc hacc
    rcases hacc with hacc | ⟨n, hn, _⟩
    · simpa using hacc
    · exact absurd hn (List.not_mem_nil n)
  | cons n ns ih =>
    intro acc hacc
    rw [List.foldl_cons]
    by_cases hin : (List.lookup n.id acc).isSome = true
    · rw [if_pos hin]
      refine ih acc ?_
      rcases hacc with hacc | ⟨n', hn', hid⟩
      · exact Or.inl hacc
      · rcases List.mem_cons.mp hn' with rfl | hmem
        · exact Or.inl (hid ▸ hin)
        · exact Or.inr ⟨n', hmem, hid⟩
    · rw [if_neg hin]
      refine ih _ ?_
      rcases hacc with hacc | ⟨n', hn', hid⟩
      · exact Or.inl (by rw [lookup_append_single, hacc, Bool.true_or])
      · rcases List.mem_cons.mp hn' with rfl | hmem
        · exact Or.inl (by rw [lookup_append_single, hid]; simp)
        · exact Or.inr ⟨n', hmem, hid⟩

theorem foldl_addEdge_total :
    ∀ (edges : List Edge) (m : List (String × List AdjEntry)),
      (∀ e ∈ edges, (List.lookup e.fromId m).isSome = true ∧
        (List.lookup e.toId m).isSome = true) →
      ∃ m', edges.foldlM addEdge m = some m' := by
  intro edges
  induction edges with
  | nil => intro m _; exact ⟨m, by simp [List.foldlM]⟩
  | cons e es ih =>
    intro m h
    obtain ⟨h1, h2⟩ := h e (List.mem_cons_self e es)
    obtain ⟨m₁, hm₁⟩ := addEdge_total h1 h2
    obtain ⟨m', hm'⟩ := ih m₁ (fun e' he' => by
      obtain ⟨h1', h2'⟩ := h e' (List.mem_cons_of_mem e he')
      rw [addEdge_keys hm₁, addEdge_keys hm₁]
      exact ⟨h1', h2'⟩)
    exact ⟨m', by rw [List.foldlM_cons]; simp [hm₁, hm']⟩

/-- C4 (amended).  The graph-index construction succeeds exactly on clean
input: whenever every edge endpoint id occurs in the node list, it returns an
adjacency structure.  A dangling id, by `buildAdjacencyList_dangling_fails`,
instead aborts the construction (the source throws a TypeError), rather than
being tolerated as an unreachable entry. -/
theorem buildAdjacencyList_total {nodes : List Node} {edges : List Edge}
    (h : ∀ e ∈ edges, (∃ n ∈ nodes, n.id = e.fromId) ∧
      (∃ n ∈ nodes, n.id = e.toId)) :
    ∃ adj, buildAdjacencyList nodes edges = some adj := by
  refine foldl_addEdge_total edges (initAdj nodes) ?_
  intro e he
  obtain ⟨h1, h2⟩ := h e he
  exact ⟨initAdj_lookup_isSome h1, initAdj_lookup_isSome h2⟩

theorem forcedCharge_ok {veh : Vehicle} {stations : StationMap}
    {fromN toN : String} {battery energyNeeded : ℚ}
    {pre : List ChargingStop} {b1 : ℚ}
    (h : forcedCharge veh stations fromN toN battery energyNeeded =
      .ok (pre, b1)) :
    (pre = [] ∧ b1 = battery) ∨
    ∃ st, pre = [fullChargeStop veh fromN st battery] ∧
      b1 = veh.batteryCapacity := by
  unfold forcedCharge at h
  split at h
  · split at h
    · split at h
      · injection h with h'
        injection h' with h1 h2
        exact Or.inr ⟨_, h1.symm, h2.symm⟩
      · simp at h
    · simp at h
    · simp at h
  · injection h with h'
    injection h' with h1 h2
    exact Or.inl ⟨h1.symm, h2.symm⟩

theorem defensiveCharge_ok {veh : Vehicle} {stations : StationMap}
    {toN : String} {rest : List String} {b2 : ℚ}
    {post : List ChargingStop} {b3 : ℚ}
    (h : defensiveCharge veh stations toN rest b2 = .ok (post, b3)) :
    (post = [] ∧ b3 = b2) ∨
    (rest ≠ [] ∧ ∃ st, post = [fullChargeStop veh toN st b2] ∧
      b3 = veh.batteryCapacity) := by
  unfold defensiveCharge at h
  split at h
  case isTrue hc =>
    split at h
    · split at h
      · injection h with h'
        injection h' with h1 h2
        exact Or.inr ⟨hc.2, _, h1.symm, h2.symm⟩
      · injection h with h'
        injection h' with h1 h2
        exact Or.inl ⟨h1.symm, h2.symm⟩
    · simp at h
    · injection h with h'
      injection h' with h1 h2
      exact Or.inl ⟨h1.symm, h2.symm⟩
  case isFalse =>
    injection h with h'
    injection h' with h1 h2
    exact Or.inl ⟨h1.symm, h2.symm⟩



theorem simulate_cons_cons (veh : Vehicle) (edges : List Edge)
    (stations : StationMap) (battery : ℚ) (fromN toN : String)
    (rest : List String) :
    simulate veh edges stations battery (fromN :: toN :: rest) =
      match feasStep veh edges stations fromN toN rest battery with
      | .error r => r
      | .ok (pre, b2) =>
        match simulate veh edges stations b2 (toN :: rest) with
        | .feasible stops fb => .feasible (pre ++ stops) fb
        | r => r := rfl

theorem feasStep_error_not_feasible {veh : Vehicle} {edges : List Edge}
    {stations : StationMap} {fromN toN : String} {rest : List String}
    {battery : ℚ} {r : FeasResult}
    (h : feasStep veh edges stations fromN toN rest battery = .error r) :
    ∀ stops fb, r ≠ .feasible stops fb := by
  unfold feasStep at h
  split at h
  · injection h with h'
    subst h'
    intro stops fb hc
    cases hc
  · rename_i edge heq
    dsimp only at h
    cases hf : forcedCharge veh stations fromN toN battery
        (edge.distance * veh.efficiency) with
    | error r' =>
      rw [hf] at h
      unfold forcedCharge at hf
      split at hf
      · split at hf
        · split at hf
          · cases hf
          · injection hf with h1
            injection h with h2
            subst h1 h2
            intro stops fb hc
            cases hc
        · injection hf with h1
          injection h with h2
          subst h1 h2
          intro stops fb hc
          cases hc
        · injection hf with h1
          injection h with h2
          subst h1 h2
          intro stops fb hc
          cases hc
      · cases hf
    | ok pb =>
      obtain ⟨pre, b1⟩ := pb
      rw [hf] at h
      dsimp only at h
      cases hd : defensiveCharge veh stations toN rest
          (b1 - edge.distance * veh.efficiency) with
      | error r' =>
        rw [hd] at h
        unfold defensiveCharge at hd
        split at hd
        · split at hd
          · split at hd
            · cases hd
            · cases hd
          · injection hd with h1
            injection h with h2
            subst h1 h2
            intro stops fb hc
            cases hc
          · cases hd
        · cases hd
      | ok pb2 =>
        obtain ⟨post, b3⟩ := pb2
        rw [hd] at h
        cases h

theorem feasStep_ok_mem {veh : Vehicle} {edges : List Edge}
    {stations : StationMap} {fromN toN : String} {rest : List String}
    {battery : ℚ} {pre : List ChargingStop} {b2 : ℚ}
    (h : feasStep veh edges stations fromN toN rest battery = .ok (pre, b2)) :
    ∀ s ∈ pre,
      (s.nodeId = fromN ∨ (s.nodeId = toN ∧ rest ≠ [])) ∧
      s.isOptional = false := by
  unfold feasStep at h
  split at h
  · cases h
  · rename_i edge heq
    dsimp only at h
    cases hf : forcedCharge veh stations fromN toN battery
        (edge.distance * veh.efficiency) with
    | error r' => rw [hf] at h; cases h
    | ok pb =>
      obtain ⟨pre0, b1⟩ := pb
      rw [hf] at h
      dsimp only at h
      cases hd : defensiveCharge veh stations toN rest
          (b1 - edge.distance * veh.efficiency) with
      | error r' => rw [hd] at h; cases h
      | ok pb2 =>
        obtain ⟨post, b3⟩ := pb2
        rw [hd] at h
        injection h with h'
        injection h' with h1 h2
        subst h2
        intro s hs
        rw [← h1] at hs
        rcases List.mem_append.mp hs with hmem | hmem
        · rcases forcedCharge_ok hf with ⟨hnil, _⟩ | ⟨st, hpre, _⟩
          · rw [hnil] at hmem; cases hmem
          · rw [hpre] at hmem
            obtain rfl := List.mem_singleton.mp hmem
            exact ⟨Or.inl rfl, rfl⟩
        · rcases defensiveCharge_ok hd with ⟨hnil, _⟩ | ⟨hrest, st, hpost, _⟩
          · rw [hnil] at hmem; cases hmem
          · rw [hpost] at hmem
            obtain rfl := List.mem_singleton.mp hmem
            exact ⟨Or.inr ⟨rfl, hrest⟩, rfl⟩

theorem simulate_feasible_mem {veh : Vehicle} {edges : List Edge}
    {stations : StationMap} :
    ∀ (path : List String) (battery : ℚ) {stops : List ChargingStop} {fb : ℚ},
      simulate veh edges stations battery path = .feasible stops fb →
      ∀ s ∈ stops, s.nodeId ∈ path.dropLast ∧ s.isOptional = false := by
  intro path
  induction path with
  | nil =>
    intro battery stops fb h s hs
    unfold simulate at h
    injection h with h1 _
    subst h1
    cases hs
  | cons fromN rest ih =>
    cases rest with
    | nil =>
      intro battery stops fb h s hs
      unfold simulate at h
      injection h with h1 _
      subst h1
      cases hs
    | cons toN rest2 =>
      intro battery stops fb h s hs
      rw [simulate_cons_cons] at h
      cases hstep : feasStep veh edges stations fromN toN rest2 battery with
      | error r =>
        rw [hstep] at h
        exact absurd h (feasStep_error_not_feasible hstep stops fb)
      | ok pb =>
        obtain ⟨pre, b2⟩ := pb
        rw [hstep] at h
        dsimp only at h
        cases hrec : simulate veh edges stations b2 (toN :: rest2) with
        | feasible stops' fb' =>
          rw [hrec] at h
          injection h with h1 h2
          rw [← h1] at hs
          rcases List.mem_append.mp hs with hmem | hmem
          · obtain ⟨hnode, hopt⟩ := feasStep_ok_mem hstep s hmem
            refine ⟨?_, hopt⟩
            rcases hnode with hnode | ⟨hnode, hrest⟩
            · rw [List.dropLast_cons₂, hnode]
              exact List.mem_cons_self fromN _
            · cases rest2 with
              | nil => exact absurd rfl hrest
              | cons c r2 =>
                rw [List.dropLast_cons₂, hnode]
                exact List.mem_cons_of_mem fromN
                  (by rw [List.dropLast_cons₂]; exact List.mem_cons_self toN _)
          · obtain ⟨hnode, hopt⟩ := ih b2 hrec s hmem
            refine ⟨?_, hopt⟩
            rw [List.dropLast_cons₂]
            exact List.mem_cons_of_mem fromN hnode
        | infeasible msg => rw [hrec] at h; cases h
        | crash => rw [hrec] at h; cases h

/-- C10.  In every feasible simulation over a path of length n, every
recorded required ChargingStop sits at one of the departure positions
`path[0] … path[n-2]` (forced charges at the departure node, defensive
charges only at arrival nodes that are not last), never at the final
position; in particular, when the destination id does not also occur
earlier in the path, no stop is recorded at the destination. -/
theorem feasible_stops_before_destination {veh : Vehicle} {path : List String}
    {edges : List Edge} {stations : StationMap} {stops : List ChargingStop}
    {fb : ℚ}
    (h : checkPathFeasibility veh path edges stations = .feasible stops fb) :
    (∀ s ∈ stops, s.nodeId ∈ path.dropLast) ∧
    (∀ dst, path.getLast? = some dst → dst ∉ path.dropLast →
      ∀ s ∈ stops, s.nodeId ≠ dst) := by
  have hmem := simulate_feasible_mem path veh.batteryCapacity h
  refine ⟨fun s hs => (hmem s hs).1, ?_⟩
  intro dst _ hnot s hs heq
  exact hnot (heq ▸ (hmem s hs).1)

/-- C10 (witness): the Scenario B run records its single stop at `A`, a
non-final position. -/
theorem feasible_stops_before_destination_witness :
    scenarioBStop.nodeId ∈ (["A", "B"] : List String).dropLast :=
  (@feasible_stops_before_destination vehB ["A", "B"] edgesB stMapB
    [scenarioBStop] (-5) (by with_unfolding_all decide)).1 scenarioBStop
    (List.mem_singleton_self _)

/-- C3 (amended).  When a traversed edge's energy need exceeds the battery,
the planner consults only the first station of the list at the departure
node: no list at all gives the no-station error; a first station that does
not support the vehicle's connector gives the no-connector error even when a
later station of the list is compatible (`first_station_shadowing_infeasible`);
a compatible first station charges fully (capacity − current level) and
records the required ChargingStop. -/
theorem forced_charge_uses_first_station (veh : Vehicle)
    (stations : StationMap) (fromN toN : String)
    (battery energyNeeded : ℚ) (hneed : energyNeeded > battery) :
    (List.lookup fromN stations = none →
      forcedCharge veh stations fromN toN battery energyNeeded =
        .error (.infeasible ("No charging station at " ++ fromN ++
          " and not enough battery to reach " ++ toN))) ∧
    (∀ st tl, List.lookup fromN stations = some (st :: tl) →
      compatibleConnector veh st = false →
      forcedCharge veh stations fromN toN battery energyNeeded =
        .error (.infeasible ("No compatible charging connector at " ++ fromN))) ∧
    (∀ st tl, List.lookup fromN stations = some (st :: tl) →
      compatibleConnector veh st = true →
      forcedCharge veh stations fromN toN battery energyNeeded =
        .ok ([fullChargeStop veh fromN st battery], veh.batteryCapacity)) := by
  refine ⟨fun hl => ?_, fun st tl hl hc => ?_, fun st tl hl hc => ?_⟩ <;>
    (unfold forcedCharge; rw [if_pos hneed, hl]) <;> simp [hc]

/-- C3 amended (witness): the Scenario B station map, with a 20 kWh need
against a 15 kWh battery. -/
theorem forced_charge_uses_first_station_witness :
    (List.lookup "A" stMapB = none →
      forcedCharge vehB stMapB "A" "B" 15 20 =
        .error (.infeasible ("No charging station at " ++ "A" ++
          " and not enough battery to reach " ++ "B"))) ∧
    (∀ st tl, List.lookup "A" stMapB = some (st :: tl) →
      compatibleConnector vehB st = false →
      forcedCharge vehB stMapB "A" "B" 15 20 =
        .error (.infeasible ("No compatible charging connector at " ++ "A"))) ∧
    (∀ st tl, List.lookup "A" stMapB = some (st :: tl) →
      compatibleConnector vehB st = true →
      forcedCharge vehB stMapB "A" "B" 15 20 =
        .ok ([fullChargeStop vehB "A" st 15], vehB.batteryCapacity)) :=
  forced_charge_uses_first_station vehB stMapB "A" "B" 15 20
    (by with_unfolding_all decide)

theorem pwc_success_shape {a : AStar} {p : List String} {es : List Edge}
    {p' : List String} {es' : List Edge} {stops : List ChargingStop}
    {total : ℚ} {warn : Option String}
    (h : a.findPathWithChargingStations p es =
      .success p' es' stops total warn) :
    p' = p ∧ es' = es ∧ total = sumDistance es := by
  unfold AStar.findPathWithChargingStations at h
  dsimp only at h
  cases h1 : a.checkPathFeasibility p es
      (a.findNearbyChargingStations p a.maxDetourDistance) with
  | feasible stops1 fb1 =>
    rw [h1] at h
    dsimp only at h
    injection h with e1 e2 e3 e4 e5
    exact ⟨e1.symm, e2.symm, e4.symm⟩
  | crash =>
    rw [h1] at h
    dsimp only at h
    cases h
  | infeasible msg =>
    rw [h1] at h
    dsimp only at h
    cases h2 : a.checkPathFeasibility p es
        (a.findNearbyChargingStations p 10) with
    | feasible stops2 fb2 =>
      rw [h2] at h
      dsimp only at h
      injection h with e1 e2 e3 e4 e5
      exact ⟨e1.symm, e2.symm, e4.symm⟩
    | crash =>
      rw [h2] at h
      dsimp only at h
      cases h
    | infeasible msg2 =>
      rw [h2] at h
      dsimp only at h
      cases h

theorem findPath_success_shape {a : AStar} {start goal : String}
    (h : (a.findPath start goal).success = true) :
    ∃ p es d stops warn,
      a.findShortestPath start goal = .success p es d ∧
      a.findPathWithChargingStations p es =
        .success p es stops (sumDistance es) warn ∧
      a.findPath start goal =
        { success := true, path := some p,
          chargingStops := some (stops ++ optionalStops a p stops),
          totalDistance := some (sumDistance es),
          estimatedTime := some (calculateTripTime (sumDistance es) stops),
          warning := warn } := by
  unfold AStar.findPath at h ⊢
  cases hs : a.findShortestPath start goal with
  | crash =>
    rw [hs] at h
    cases h
  | failure err =>
    rw [hs] at h
    cases h
  | success p es d =>
    rw [hs] at h
    dsimp only at h
    cases hp : a.findPathWithChargingStations p es with
    | crash =>
      rw [hp] at h
      cases h
    | failure err =>
      rw [hp] at h
      cases h
    | success p' es' stops total warn =>
      obtain ⟨rfl, rfl, rfl⟩ := pwc_success_shape hp
      dsimp only
      rw [hp]
      dsimp only
      exact ⟨_, _, d, stops, warn, rfl, hp, rfl⟩

/-- C7 (amended).  Every successful `findPath` result reports as
`totalDistance` the plain sum of the `distance` fields of the edge list the
search resolved for the returned path (one edge per consecutive pair) — not
the weighted search cost.  On feasibility failure, by
`partial_totalDistance_weighted`, the partial result instead carries the
weighted cost, which can differ from the physical sum. -/
theorem findPath_success_totalDistance {a : AStar} {start goal : String}
    (h : (a.findPath start goal).success = true) :
    ∃ p es d, a.findShortestPath start goal = .success p es d ∧
      (a.findPath start goal).path = some p ∧
      (a.findPath start goal).totalDistance = some (sumDistance es) := by
  obtain ⟨p, es, d, stops, warn, hs, hp, hr⟩ := findPath_success_shape h
  exact ⟨p, es, d, hs, by rw [hr], by rw [hr]⟩

/-- C7 amended (witness): the Scenario B instance, whose successful result
reports 100 = the sum of its single resolved edge. -/
theorem findPath_success_totalDistance_witness :
    ∃ p es d, aB.findShortestPath "A" "B" = .success p es d ∧
      (aB.findPath "A" "B").path = some p ∧
      (aB.findPath "A" "B").totalDistance = some (sumDistance es) :=
  findPath_success_totalDistance (by with_unfolding_all decide)

theorem foldl_chargingTime_eq (stops : List ChargingStop) :
    ∀ t : ℚ, stops.foldl
      (fun total stop =>
        if stop.isOptional then total else total + stop.chargingTime) t =
      t + requiredChargingTime stops := by
  induction stops with
  | nil => intro t; simp [requiredChargingTime]
  | cons s rest ih =>
    intro t
    rw [List.foldl_cons]
    cases hopt : s.isOptional with
    | true =>
      rw [if_pos rfl]
      rw [ih t]
      simp [requiredChargingTime, List.filter_cons, hopt]
    | false =>
      rw [if_neg (by simp [hopt])]
      rw [ih (t + s.chargingTime)]
      simp [requiredChargingTime, List.filter_cons, hopt]
      ring

theorem requiredChargingTime_append (l₁ l₂ : List ChargingStop) :
    requiredChargingTime (l₁ ++ l₂) =
      requiredChargingTime l₁ + requiredChargingTime l₂ := by
  simp [requiredChargingTime, List.filter_append]

theorem requiredChargingTime_all_optional {l : List ChargingStop}
    (h : ∀ s ∈ l, s.isOptional = true) : requiredChargingTime l = 0 := by
  have : l.filter (fun s => !s.isOptional) = [] := by
    rw [List.filter_eq_nil_iff]
    intro s hs
    simp [h s hs]
  simp [requiredChargingTime, this]

theorem mem_insertAfterLE {α : Type} (f : α → ℤ) (x y : α) (l : List α)
    (h : y ∈ insertAfterLE f x l) : y = x ∨ y ∈ l := by
  induction l with
  | nil => simpa [insertAfterLE] using h
  | cons z zs ih =>
    unfold insertAfterLE at h
    split at h
    · rcases List.mem_cons.mp h with rfl | h
      · exact Or.inr (List.mem_cons_self _ _)
      · rcases ih h with h | h
        · exact Or.inl h
        · exact Or.inr (List.mem_cons_of_mem z h)
    · rcases List.mem_cons.mp h with rfl | h
      · exact Or.inl rfl
      · exact Or.inr h

theorem mem_stableSortBy {α : Type} (f : α → ℤ) (l : List α) (y : α)
    (h : y ∈ stableSortBy f l) : y ∈ l := by
  suffices H : ∀ (xs : List α) (acc : List α),
      y ∈ xs.foldl (fun acc x => insertAfterLE f x acc) acc →
      y ∈ acc ∨ y ∈ xs by
    rcases H l [] h with h | h
    · cases h
    · exact h
  intro xs
  induction xs with
  | nil => intro acc h; exact Or.inl h
  | cons x xs ih =>
    intro acc h
    rw [List.foldl_cons] at h
    rcases ih _ h with h | h
    · rcases mem_insertAfterLE f x y acc h with rfl | h
      · exact Or.inr (List.mem_cons_self _ _)
      · exact Or.inl h
    · exact Or.inr (List.mem_cons_of_mem x h)

theorem optionalStops_all_optional (a : AStar) (path : List String)
    (chargingStops : List ChargingStop) :
    ∀ s ∈ optionalStops a path chargingStops, s.isOptional = true := by
  intro s hs
  unfold optionalStops at hs
  have hs' := mem_stableSortBy _ _ s hs
  revert hs'
  generalize a.findNearbyChargingStations path a.maxDetourDistance = kvs
  suffices H : ∀ (kvs : List (String × List Station))
      (acc : List ChargingStop), (∀ t ∈ acc, t.isOptional = true) →
      s ∈ kvs.foldl (fun acc kv =>
        if chargingStops.any (fun stop => stop.nodeId == kv.1) then acc
        else if path.contains kv.1 then
          match kv.2.head? with
          | some station =>
            acc ++ [{ nodeId := kv.1, stationId := station.id,
                      stationName := station.name, chargingTime := 0,
                      energyAdded := 0, isOptional := true,
                      location := station.location,
                      distanceToPath := station.distanceToPath }]
          | none => acc
        else acc) acc →
      s.isOptional = true by
    intro hs'
    exact H kvs [] (by intro t ht; cases ht) hs'
  intro kvs
  induction kvs with
  | nil => intro acc hacc hmem; exact hacc s hmem
  | cons kv rest ih =>
    intro acc hacc hmem
    rw [List.foldl_cons] at hmem
    refine ih _ ?_ hmem
    intro t ht
    split at ht
    · exact hacc t ht
    · split at ht
      · split at ht
        · rcases List.mem_append.mp ht with ht | ht
          · exact hacc t ht
          · obtain rfl := List.mem_singleton.mp ht
            rfl
        · exact hacc t ht
      · exact hacc t ht

/-- C9.  Every successful planning result's estimated trip time is the
driving time (total distance over 60 km/h), plus the summed charging time of
the non-optional stops of the result, plus a quarter hour per full 2 hours
of driving (floor of driving time over 2); the optional stops contribute
nothing to the sum. -/
theorem findPath_estimatedTime_formula {a : AStar} {start goal : String}
    (h : (a.findPath start goal).success = true) :
    ∃ d stops, (a.findPath start goal).totalDistance = some d ∧
      (a.findPath start goal).chargingStops = some stops ∧
      (a.findPath start goal).estimatedTime =
        some (d / 60 + requiredChargingTime stops +
          (⌊d / 60 / 2⌋ : ℚ) * ((1 : ℚ) / 4)) := by
  obtain ⟨p, es, d0, stops, warn, hs, hp, hr⟩ := findPath_success_shape h
  refine ⟨sumDistance es, stops ++ optionalStops a p stops,
    by rw [hr], by rw [hr], ?_⟩
  rw [hr]
  have hopt : requiredChargingTime (optionalStops a p stops) = 0 :=
    requiredChargingTime_all_optional (optionalStops_all_optional a p stops)
  have : requiredChargingTime (stops ++ optionalStops a p stops) =
      requiredChargingTime stops := by
    rw [requiredChargingTime_append, hopt, add_zero]
  rw [this]
  unfold calculateTripTime
  dsimp only
  rw [foldl_chargingTime_eq stops 0, zero_add]

/-- C9 (witness): the Scenario B instance (driving time 5/3 h, one required
stop of time 0, no rest). -/
theorem findPath_estimatedTime_formula_witness :
    ∃ d stops, (aB.findPath "A" "B").totalDistance = some d ∧
      (aB.findPath "A" "B").chargingStops = some stops ∧
      (aB.findPath "A" "B").estimatedTime =
        some (d / 60 + requiredChargingTime stops +
          (⌊d / 60 / 2⌋ : ℚ) * ((1 : ℚ) / 4)) :=
  findPath_estimatedTime_formula (by with_unfolding_all decide)

theorem lookup_assocSet_self {α : Type} (m : List (String × α)) (k : String)
    (v : α) : List.lookup k (assocSet m k v) = some v := by
  induction m with
  | nil => simp [assocSet, List.lookup]
  | cons kv rest ih =>
    obtain ⟨k', v'⟩ := kv
    by_cases hk : k' = k
    · subst hk
      simp [assocSet, List.lookup]
    · simp only [assocSet, show (k' == k) = false by simp [hk]]
      simp only [List.lookup, show (k == k') = false by simp [Ne.symm hk]]
      exact ih

theorem lookup_assocSet_other {α : Type} (m : List (String × α))
    (k k₂ : String) (v : α) (hne : k₂ ≠ k) :
    List.lookup k₂ (assocSet m k v) = List.lookup k₂ m := by
  induction m with
  | nil => simp [assocSet, List.lookup, show (k₂ == k) = false by simp [hne]]
  | cons kv rest ih =>
    obtain ⟨k', v'⟩ := kv
    by_cases hk : k' = k
    · subst hk
      simp only [assocSet, beq_self_eq_true, if_pos]
      simp [List.lookup, show (k₂ == k') = false by simp [hne]]
    · simp only [assocSet, show (k' == k) = false by simp [hk], if_false,
        Bool.false_eq_true]
      by_cases hk2 : k₂ = k'
      · subst hk2
        simp [List.lookup]
      · simp only [List.lookup, show (k₂ == k') = false by simp [hk2]]
        exact ih

theorem subMap_refl (m : StationMap) : subMap m m := fun _ _ h => h

theorem subMap_assocSet_append (m m' : StationMap) (hsub : subMap m m')
    (k : String) (w : List Station) :
    subMap (assocSet m k (lookupList m k ++ w))
      (assocSet m' k (lookupList m' k ++ w)) := by
  intro k₂ s hs
  by_cases hk : k₂ = k
  · subst hk
    rw [lookupList, lookup_assocSet_self] at hs ⊢
    simp only [Option.getD_some] at hs ⊢
    rcases List.mem_append.mp hs with hs | hs
    · exact List.mem_append_left _ (hsub k₂ s hs)
    · exact List.mem_append_right _ hs
  · rw [lookupList, lookup_assocSet_other m k k₂ _ hk] at hs
    rw [lookupList, lookup_assocSet_other m' k k₂ _ hk]
    exact hsub k₂ s hs

theorem subMap_assocSet_right (m m' : StationMap) (hsub : subMap m m')
    (k : String) (w : List Station) :
    subMap m (assocSet m' k (lookupList m' k ++ w)) := by
  intro k₂ s hs
  by_cases hk : k₂ = k
  · subst hk
    rw [lookupList, lookup_assocSet_self]
    simp only [Option.getD_some]
    exact List.mem_append_left _ (hsub k₂ s hs)
  · rw [lookupList, lookup_assocSet_other m' k k₂ _ hk]
    exact hsub k₂ s hs

theorem attachNearby_mono (distFn : Loc → Loc → ℚ) (nodes : List Node)
    (nodeToCS : StationMap) (path : List String) {R Rw : ℚ} (hR : R ≤ Rw)
    (m m' : StationMap) (hsub : subMap m m') (nodeId : String) :
    subMap (attachNearby distFn nodes nodeToCS path R m nodeId)
      (attachNearby distFn nodes nodeToCS path Rw m' nodeId) := by
  unfold attachNearby
  by_cases hpath : path.contains nodeId
  · simp only [hpath, if_true]
    exact hsub
  · simp only [hpath, Bool.false_eq_true, if_false]
    cases hfind : nodes.find? (fun n => n.id == nodeId) with
    | none => exact hsub
    | some nodeObj =>
      dsimp only
      cases hclos : closestInPath distFn nodes nodeObj.location path with
      | none => exact hsub
      | some cp =>
        obtain ⟨closest, minDist⟩ := cp
        dsimp only
        by_cases h1 : minDist ≤ R
        · rw [if_pos h1, if_pos (le_trans h1 hR)]
          exact subMap_assocSet_append m m' hsub closest _
        · rw [if_neg h1]
          by_cases h2 : minDist ≤ Rw
          · rw [if_pos h2]
            exact subMap_assocSet_right m m' hsub closest _
          · rw [if_neg h2]
            exact hsub

/-- C8 (amended): widening the detour radius never loses stations — every
station the resolver associates with a path node at radius `R` is still
associated with that node at any radius `Rw ≥ R` (what can change, and what
the counterexample exploits, is the order of the list, hence which station
is first). -/
theorem findNearby_station_superset (distFn : Loc → Loc → ℚ)
    (nodes : List Node) (nodeToCS : StationMap) (path : List String)
    {R Rw : ℚ} (hR : R ≤ Rw) :
    subMap (findNearbyChargingStations distFn nodes nodeToCS path R)
      (findNearbyChargingStations distFn nodes nodeToCS path Rw) := by
  unfold findNearbyChargingStations
  generalize nodeToCS.map Prod.fst = keys
  suffices H : ∀ (ks : List String) (m m' : StationMap), subMap m m' →
      subMap (ks.foldl (attachNearby distFn nodes nodeToCS path R) m)
        (ks.foldl (attachNearby distFn nodes nodeToCS path Rw) m') by
    exact H keys _ _ (subMap_refl _)
  intro ks
  induction ks with
  | nil => intro m m' hsub; exact hsub
  | cons k ks ih =>
    intro m m' hsub
    rw [List.foldl_cons, List.foldl_cons]
    exact ih _ _ (attachNearby_mono distFn nodes nodeToCS path hR m m' hsub k)

/-- C1 (counterexample).  Scenario B as the claim fixes it: one 100 km edge,
efficiency 0.2 kWh/km, capacity 15 kWh, a compatible 50 kW station at the
origin.  `findPath` does return success with exactly one required stop and
total distance 100, but the stop's `chargingTime` is 0, not the claimed
0.1 h: the planner charges `batteryCapacity - battery` at the departure node,
and the battery is still full there, so zero energy is added (and the 5 kWh
deficit is never covered). -/
theorem scenarioB_stop_time_not_tenth :
    (aB.findPath "A" "B").chargingStops = some [scenarioBStop] ∧
    scenarioBStop.chargingTime ≠ 1/10 := by
  constructor
  · with_unfolding_all decide
  · with_unfolding_all decide

/-- C1 (amended).  On Scenario B's input, `findPath` returns success with
exactly one required ChargingStop, recorded at the origin with
`chargingTime = 0` and `energyAdded = 0` (capacity minus a full battery),
`totalDistance = 100` and `estimatedTime = 100/60`. -/
theorem scenarioB_route_result :
    AStar.make nodesB edgesB stationsB vehB linDist = some aB ∧
    aB.findPath "A" "B" =
      { success := true, path := some ["A", "B"],
        chargingStops := some [scenarioBStop],
        totalDistance := some 100, estimatedTime := some (5/3) } := by
  constructor
  · rfl
  · with_unfolding_all decide

/-- C2 (code bug).  On Scenario B's input the feasibility simulation returns
`feasible` while the simulated battery after the only segment — which is also
`finalBatteryLevel` — is −5 kWh: after the forced full charge at the origin
the code subtracts the 20 kWh segment need from the 15 kWh capacity and never
re-checks the sign, contradicting its own comment that the battery then
definitely suffices for the segment. -/
theorem feasible_with_negative_battery :
    checkPathFeasibility vehB ["A", "B"] edgesB stMapB =
      .feasible [scenarioBStop] (-5) ∧ (-5 : ℚ) < 0 := by
  constructor
  · with_unfolding_all decide
  · with_unfolding_all decide

/-- C3 (counterexample).  The segment's 20 kWh need exceeds the 15 kWh
battery, and a station at the departure node (`S2`, the second in the list)
does support the vehicle's connector, yet the planner fails with the
no-compatible-connector error: it consults only the first station of the
list. -/
theorem first_station_shadowing_infeasible :
    checkPathFeasibility vehB ["A", "B"] edgesB stMapC3 =
      .infeasible "No compatible charging connector at A" ∧
    (∃ st ∈ (List.lookup "A" stMapC3).getD [],
      compatibleConnector vehB st = true) := by
  refine ⟨by with_unfolding_all decide, ?_⟩
  refine ⟨{ id := "S2", location := (0, 0), chargingSpeed := 50,
            connectorTypes := ["CCS2"] }, by with_unfolding_all decide, by with_unfolding_all decide⟩

/-- C4 (counterexample).  A single node `A` and an edge to the absent id `Z`:
the graph-index construction fails (the source throws a TypeError on
`adjacencyList[edge.to].push`) instead of tolerating the dangling id. -/
theorem buildAdjacencyList_dangling_fails :
    buildAdjacencyList [{ id := "A", location := (0, 0) }]
      [{ fromId := "A", toId := "Z", distance := 1 }] = none := by
  with_unfolding_all decide

/-- C4 amended (witness): Scenario B's edges have both endpoints in the node
list, and construction succeeds. -/
theorem buildAdjacencyList_total_witness :
    ∃ adj, buildAdjacencyList nodesB edgesB = some adj :=
  @buildAdjacencyList_total nodesB edgesB (by with_unfolding_all decide)

/-- C5 (witness): on Scenario B's graph, both directions of the single edge
are present in the built adjacency structure. -/
theorem buildAdjacencyList_symmetric_witness :
    adjContains adjB "A"
      (fwdEntry { fromId := "A", toId := "B", distance := 100 }) ∧
    adjContains adjB "B"
      (bwdEntry { fromId := "A", toId := "B", distance := 100 }) :=
  @buildAdjacencyList_symmetric nodesB edgesB adjB
    (by with_unfolding_all decide)
    { fromId := "A", toId := "B", distance := 100 }
    (by with_unfolding_all decide)

/-- C6.  When the origin id (or, symmetrically, the destination id) is absent
from the node list, `findPath` returns the node-not-found failure result and
carries no partial path data: every other field, `partialPath` and
`totalDistance` included, is absent. -/
theorem findPath_node_not_found (a : AStar) (start goal : String)
    (h : (a.nodes.find? (fun n => n.id == start)).isNone = true ∨
         (a.nodes.find? (fun n => n.id == goal)).isNone = true) :
    a.findPath start goal =
      { success := false,
        error := some "Start or goal node not found in the road network" } := by
  have hcond : ((a.nodes.find? (fun n => n.id == start)).isNone ||
      (a.nodes.find? (fun n => n.id == goal)).isNone) = true := by
    rcases h with h | h <;> simp [h]
  unfold AStar.findPath AStar.findShortestPath findShortestPath
  rw [if_pos hcond]
  simp [jsOr]

/-- C6 (witness): the Scenario B instance queried from the absent origin
id `Z`. -/
theorem findPath_node_not_found_witness :
    aB.findPath "Z" "B" =
      { success := false,
        error := some "Start or goal node not found in the road network" } :=
  findPath_node_not_found aB "Z" "B" (Or.inl (by with_unfolding_all decide))

/-- C7 (counterexample).  On the single 100 km highway edge with no stations,
feasibility fails and `findPath` returns the partial result whose
`totalDistance` is the weighted search cost 95 (the 5 % highway discount
applied), not the 100 km physical sum of the edges between consecutive path
nodes. -/
theorem partial_totalDistance_weighted :
    aC7.findPath "A" "B" =
      { success := false,
        error := some "No charging station at A and not enough battery to reach B",
        partialPath := some ["A", "B"],
        totalDistance := some 95 } ∧
    sumDistance edgesH = 100 ∧ (95 : ℚ) ≠ 100 := by
  refine ⟨by with_unfolding_all decide, by with_unfolding_all decide, by norm_num⟩

/-- C8 (counterexample).  Fixed path `[A, B]`, fixed edge list, fixed station
catalog and vehicle, detour radii 5 < 10: at radius 5 only the compatible
station (3 km away) is attached to `A` and the simulation is feasible; at
radius 10 the incompatible station (8 km away, earlier in the catalog) is
attached first, the planner consults only the first station of the list, and
the same simulation is infeasible.  Widening the radius flips feasible to
infeasible. -/
theorem widened_radius_flips_feasibility :
    (5 : ℚ) < 10 ∧
    checkPathFeasibility vehB ["A", "B"] edgesB
      (findNearbyChargingStations linDist nodesC8 csMapC8 ["A", "B"] 5) =
      .feasible
        [{ nodeId := "A", stationId := "S2", stationName := "",
           location := (3, 0), chargingTime := 0, energyAdded := 0 }] (-5) ∧
    checkPathFeasibility vehB ["A", "B"] edgesB
      (findNearbyChargingStations linDist nodesC8 csMapC8 ["A", "B"] 10) =
      .infeasible "No compatible charging connector at A" := by
  refine ⟨by norm_num, by with_unfolding_all decide, by with_unfolding_all decide⟩

/-- C8 amended (witness): at radii 5 ≤ 10 on the C8 network, the compatible
station attached to `A` at radius 5 is still attached to `A` at radius 10. -/
theorem findNearby_station_superset_witness :
    stationS2atA ∈ lookupList
      (findNearbyChargingStations linDist nodesC8 csMapC8 ["A", "B"] 10) "A" :=
  findNearby_station_superset linDist nodesC8 csMapC8 ["A", "B"]
    (show (5 : ℚ) ≤ 10 by norm_num) "A" stationS2atA
    (by with_unfolding_all decide)

end EVTrip
